import Mathlib

/-!  Shallow embedding of the OrderCart fulfillment processor
(`src/agent-fulfillment-processor/main.py`): the status-transition engine
(`OrderProcessor`), the batch-suggestion engine (`BatchAnalyzer`) and the
batch-creation route.  Firestore documents become Lean structures with
`Option` fields for possibly-absent keys; the mutable `orders` collection
becomes an association list threaded through the operations; raised
exceptions become `Except` errors.  -/

/-- A line item of an order (an entry of the `items` list); dictionary keys
may be absent, hence `Option`. -/
structure Item where
  sku : Option String
  name : Option String
deriving Repr, DecidableEq

/-- The `created_at` field of an order document: absent, present but not
parseable by `datetime.fromisoformat` (which raises `ValueError`), or
parseable to a point in time measured in seconds. -/
inductive CreatedAt where
  | missing : CreatedAt
  | malformed : String → CreatedAt
  | parsed : Int → CreatedAt
deriving Repr, DecidableEq

/-- An order document as stored in the `orders` collection. -/
structure OrderDoc where
  order_id : Option String
  status : Option String
  address_state : Option String
  created_at : CreatedAt
  items : List Item
  updated_at : Option String
  updated_by : Option String
deriving Repr, DecidableEq

/-- The `orders` collection: an association list keyed by document id. -/
abbrev OrderStore := List (String × OrderDoc)

/-- `db.collection('orders').document(id).get()`. -/
def storeGet : OrderStore → String → Option OrderDoc
  | [], _ => none
  | p :: rest, id => if p.1 == id then some p.2 else storeGet rest id

/-- `doc_ref.update(...)`: merge new field values into the stored
document. -/
def storeUpdate : OrderStore → String → (OrderDoc → OrderDoc) → OrderStore
  | [], _, _ => []
  | p :: rest, id, f =>
    (if p.1 == id then (p.1, f p.2) else p) :: storeUpdate rest id f

/-- The `VALID_TRANSITIONS` dictionary; `VALID_TRANSITIONS.get(current, [])`
yields `[]` for any key not present. -/
def VALID_TRANSITIONS (current : String) : List String :=
  if current = "validated" then ["processing", "paid"]
  else if current = "paid" then ["picking"]
  else if current = "picking" then ["packed"]
  else if current = "packed" then ["shipped"]
  else if current = "shipped" then ["delivered"]
  else if current = "processing" then ["paid", "exception"]
  else []

/-- `OrderProcessor._is_valid_transition`; `current` is `order.get('status')`
and may be `None`, in which case neither the equality nor the policy lookup
can succeed. -/
def is_valid_transition (current : Option String) (new : String) : Bool :=
  match current with
  | some c => c == new || (VALID_TRANSITIONS c).contains new
  | none => false

/-- A communication-request message published to the communication topic. -/
structure Event where
  order_id : String
  event : String
deriving Repr, DecidableEq

/-- The two `ValueError` failure modes raised by `update_status`. -/
inductive UpdateError where
  | notFound : String → UpdateError
  | invalidTransition : Option String → String → UpdateError
deriving Repr, DecidableEq

/-- The success payload `{'success': True, 'order_id': ..., 'status': ...}`. -/
structure UpdateOk where
  order_id : String
  status : String
deriving Repr, DecidableEq

/-- `OrderProcessor._request_communication`: publishes one message; a
publish failure is caught inside this method and only logged.  `pub` models
whether the publish succeeds.  Returns (attempted messages, delivered
messages). -/
def request_communication (pub : Bool) (order_id event : String) :
    List Event × List Event :=
  let e : Event := ⟨order_id, event⟩
  if pub then ([e], [e]) else ([e], [])

/-- Outcome of `OrderProcessor.update_status`: the store after the call,
the notification messages attempted and delivered, and the returned value
or the raised error. -/
structure UpdateOutcome where
  store : OrderStore
  attempted : List Event
  delivered : List Event
  result : Except UpdateError UpdateOk
deriving Repr

/-- The field map written by `doc_ref.update({...})` in `update_status`. -/
def applyFields (now_iso new_status : String) (d : OrderDoc) : OrderDoc :=
  { d with status := some new_status, updated_at := some now_iso,
           updated_by := some "ADK-002" }

/-- `OrderProcessor.update_status`.  `now_iso` stands for the value of
`datetime.now().isoformat()` during the call. -/
def update_status (now_iso : String) (pub : Bool) (store : OrderStore)
    (order_id new_status : String) : UpdateOutcome :=
  match storeGet store order_id with
  | none => ⟨store, [], [], .error (.notFound order_id)⟩
  | some order =>
    if is_valid_transition order.status new_status then
      let store' := storeUpdate store order_id (applyFields now_iso new_status)
      if new_status == "shipped" || new_status == "delivered" then
        let ad := request_communication pub order_id new_status
        ⟨store', ad.1, ad.2, .ok ⟨order_id, new_status⟩⟩
      else
        ⟨store', [], [], .ok ⟨order_id, new_status⟩⟩
    else
      ⟨store, [], [], .error (.invalidTransition order.status new_status)⟩

/-- One entry of the `results` list built by `bulk_update_status`. -/
structure OrderResult where
  order_id : String
  success : Bool
  error : Option UpdateError
deriving Repr, DecidableEq

/-- The dictionary returned by `bulk_update_status`. -/
structure BulkResult where
  total : Nat
  success : Nat
  failed : Nat
  results : List OrderResult
deriving Repr, DecidableEq

/-- The loop of `OrderProcessor.bulk_update_status`: attempts every id in
order, threading the store; a member's exception is caught, recorded, and
the loop continues.  Returns (final store, results, success count). -/
def bulk_go (now_iso : String) (pub : Bool) (store : OrderStore)
    (new_status : String) : List String → OrderStore × List OrderResult × Nat
  | [] => (store, [], 0)
  | id :: rest =>
    let out := update_status now_iso pub store id new_status
    match out.result with
    | .ok _ =>
      let t := bulk_go now_iso pub out.store new_status rest
      (t.1, ⟨id, true, none⟩ :: t.2.1, t.2.2 + 1)
    | .error e =>
      let t := bulk_go now_iso pub store new_status rest
      (t.1, ⟨id, false, some e⟩ :: t.2.1, t.2.2)

/-- `OrderProcessor.bulk_update_status`. -/
def bulk_update_status (now_iso : String) (pub : Bool) (store : OrderStore)
    (order_ids : List String) (new_status : String) :
    OrderStore × BulkResult :=
  let t := bulk_go now_iso pub store new_status order_ids
  (t.1, ⟨order_ids.length, t.2.2, order_ids.length - t.2.2, t.2.1⟩)

/-- The policy edge set as the specification lists it. -/
def specEdges : List (String × String) :=
  [("validated", "processing"), ("validated", "paid"),
   ("processing", "paid"), ("processing", "exception"),
   ("paid", "picking"), ("picking", "packed"),
   ("packed", "shipped"), ("shipped", "delivered")]

theorem valid_transitions_eq_specEdges (c n : String) :
    n ∈ VALID_TRANSITIONS c ↔ (c, n) ∈ specEdges := by
  simp only [VALID_TRANSITIONS, specEdges]
  split_ifs with h1 h2 h3 h4 h5 h6 <;> subst_vars <;>
    simp_all [List.mem_cons, Prod.mk.injEq]

theorem storeGet_storeUpdate_self (s : OrderStore) (id : String)
    (f : OrderDoc → OrderDoc) :
    storeGet (storeUpdate s id f) id = (storeGet s id).map f := by
  induction s with
  | nil => rfl
  | cons p rest ih =>
    by_cases h : p.1 == id
    · simp [storeGet, storeUpdate, h]
    · simp [storeGet, storeUpdate, h, ih]

theorem storeGet_storeUpdate_ne (s : OrderStore) (id j : String)
    (f : OrderDoc → OrderDoc) (hne : j ≠ id) :
    storeGet (storeUpdate s id f) j = storeGet s j := by
  induction s with
  | nil => rfl
  | cons p rest ih =>
    by_cases h : p.1 == id
    · have hp : p.1 = id := by simpa using h
      have hj : (p.1 == j) = false := by
        rw [hp, beq_eq_false_iff_ne]
        exact fun hh => hne hh.symm
      simp [storeGet, storeUpdate, h, hj, ih]
    · by_cases hj : p.1 == j
      · simp [storeGet, storeUpdate, h, hj]
      · simp [storeGet, storeUpdate, h, hj, ih]


/-- Whether an `Except` result is a success. -/
def isOkResult : Except UpdateError UpdateOk → Bool
  | .ok _ => true
  | .error _ => false

theorem is_valid_transition_iff (st : Option String) (ns : String) :
    is_valid_transition st ns = true ↔
      (st = some ns ∨ ∃ c, st = some c ∧ ns ∈ VALID_TRANSITIONS c) := by
  cases st with
  | none => simp [is_valid_transition]
  | some c =>
    simp only [is_valid_transition, Bool.or_eq_true, beq_iff_eq,
      List.contains, List.elem_iff, Option.some.injEq]
    constructor
    · rintro (h | h)
      · exact Or.inl h
      · exact Or.inr ⟨c, rfl, h⟩
    · rintro (h | ⟨c', hc, h⟩)
      · exact Or.inl h
      · exact Or.inr (hc ▸ h)

/-- Whether the attempt to move order `id` to `ns` would succeed, as a
function of the stored document alone. -/
def attemptOk (store : OrderStore) (id ns : String) : Bool :=
  match storeGet store id with
  | none => false
  | some d => is_valid_transition d.status ns

theorem update_status_isOk (now_iso : String) (pub : Bool)
    (store : OrderStore) (id ns : String) :
    isOkResult (update_status now_iso pub store id ns).result
      = attemptOk store id ns := by
  unfold update_status attemptOk
  cases hd : storeGet store id with
  | none => rfl
  | some d =>
    cases hv : is_valid_transition d.status ns with
    | true => simp only [hv, if_true]; split <;> rfl
    | false => simp [hv, isOkResult]

theorem update_status_store_of_ok (now_iso : String) (pub : Bool)
    (store : OrderStore) (id ns : String) (h : attemptOk store id ns = true) :
    (update_status now_iso pub store id ns).store
      = storeUpdate store id (applyFields now_iso ns) := by
  unfold update_status
  cases hd : storeGet store id with
  | none =>
    exfalso
    unfold attemptOk at h
    rw [hd] at h
    exact Bool.false_ne_true h
  | some d =>
    have hv : is_valid_transition d.status ns = true := by
      unfold attemptOk at h
      rw [hd] at h
      exact h
    simp only [hv, if_true]
    split <;> rfl

theorem update_status_store_of_fail (now_iso : String) (pub : Bool)
    (store : OrderStore) (id ns : String) (h : attemptOk store id ns = false) :
    (update_status now_iso pub store id ns).store = store := by
  unfold update_status
  cases hd : storeGet store id with
  | none => rfl
  | some d =>
    have hv : is_valid_transition d.status ns = false := by
      unfold attemptOk at h
      rw [hd] at h
      exact h
    simp [hv]

theorem update_status_store_other (now_iso : String) (pub : Bool)
    (store : OrderStore) (id ns j : String) (hne : j ≠ id) :
    storeGet (update_status now_iso pub store id ns).store j
      = storeGet store j := by
  unfold update_status
  cases hd : storeGet store id with
  | none => rfl
  | some d =>
    cases hv : is_valid_transition d.status ns with
    | true =>
      have hupd := storeGet_storeUpdate_ne store id j (applyFields now_iso ns) hne
      simp only [hv, if_true]
      split <;> exact hupd
    | false => simp [hv]

theorem attemptOk_congr (s₁ s₂ : OrderStore) (id ns : String)
    (h : storeGet s₁ id = storeGet s₂ id) :
    attemptOk s₁ id ns = attemptOk s₂ id ns := by
  unfold attemptOk
  rw [h]

theorem attemptOk_same_status (store : OrderStore) (id ns : String) (d : OrderDoc)
    (hd : storeGet store id = some d) (hs : d.status = some ns) :
    attemptOk store id ns = true := by
  unfold attemptOk
  rw [hd]
  exact (is_valid_transition_iff d.status ns).mpr (Or.inl hs)

theorem update_status_get_after_ok (now_iso : String) (pub : Bool)
    (store : OrderStore) (id ns : String) (d : OrderDoc)
    (hd : storeGet store id = some d) (h : attemptOk store id ns = true) :
    storeGet (update_status now_iso pub store id ns).store id
      = some (applyFields now_iso ns d) := by
  rw [update_status_store_of_ok now_iso pub store id ns h,
    storeGet_storeUpdate_self, hd]
  rfl

theorem update_status_invalid (now_iso : String) (pub : Bool)
    (store : OrderStore) (oid ns : String) (d : OrderDoc)
    (hd : storeGet store oid = some d)
    (hv : is_valid_transition d.status ns = false) :
    update_status now_iso pub store oid ns
      = ⟨store, [], [], .error (.invalidTransition d.status ns)⟩ := by
  unfold update_status
  rw [hd]
  simp [hv]

/-- C1: `update_status` succeeds exactly when the order exists and the
requested status equals the stored one or is an edge of the policy table;
the policy table holds exactly the edges the specification lists; every
other pair with distinct current status raises the invalid-transition
`ValueError` and leaves the store unchanged; and a transition to the
current status always succeeds. -/
theorem C1_update_status_policy (now_iso : String) (pub : Bool)
    (store : OrderStore) (oid ns : String) :
    (∀ c n : String, n ∈ VALID_TRANSITIONS c ↔ (c, n) ∈ specEdges) ∧
    (isOkResult (update_status now_iso pub store oid ns).result = true ↔
      ∃ d, storeGet store oid = some d ∧
        (d.status = some ns ∨ ∃ c, d.status = some c ∧ ns ∈ VALID_TRANSITIONS c)) ∧
    (∀ d c, storeGet store oid = some d → d.status = some c → c ≠ ns →
      ns ∉ VALID_TRANSITIONS c →
      (update_status now_iso pub store oid ns).result
          = Except.error (UpdateError.invalidTransition (some c) ns) ∧
        (update_status now_iso pub store oid ns).store = store) ∧
    (∀ d, storeGet store oid = some d → d.status = some ns →
      isOkResult (update_status now_iso pub store oid ns).result = true) := by
  refine ⟨valid_transitions_eq_specEdges, ?_, ?_, ?_⟩
  · rw [update_status_isOk]
    unfold attemptOk
    cases hd : storeGet store oid with
    | none => simp
    | some d => simp [is_valid_transition_iff]
  · intro d c hd hs hne hnot
    have hv : is_valid_transition d.status ns = false := by
      rcases Bool.eq_false_or_eq_true (is_valid_transition d.status ns) with h | h
      · exfalso
        rcases (is_valid_transition_iff d.status ns).mp h with h1 | ⟨c', hc', h2⟩
        · rw [hs] at h1
          injection h1 with h1
          exact hne h1
        · rw [hs] at hc'
          injection hc' with hc'
          subst hc'
          exact hnot h2
      · exact h
    rw [update_status_invalid now_iso pub store oid ns d hd hv, hs]
    exact ⟨rfl, rfl⟩
  · intro d hd hs
    rw [update_status_isOk]
    exact attemptOk_same_status store oid ns d hd hs

/-- A sample stored order used by the concrete witnesses. -/
def docWith (st : String) : OrderDoc :=
  ⟨some "O1", some st, some "CA", CreatedAt.missing, [], none, none⟩

theorem C1_update_status_policy_witness :
    (update_status "T0" true [("O1", docWith "paid")] "O1" "shipped").result
        = Except.error (UpdateError.invalidTransition (some "paid") "shipped") ∧
    (update_status "T0" true [("O1", docWith "paid")] "O1" "shipped").store
        = [("O1", docWith "paid")] :=
  (C1_update_status_policy "T0" true [("O1", docWith "paid")] "O1" "shipped").2.2.1
    (docWith "paid") "paid" (by decide) (by decide) (by decide) (by decide)

theorem bulk_go_map_id (now_iso : String) (pub : Bool) (ns : String) :
    ∀ (ids : List String) (store : OrderStore),
      ((bulk_go now_iso pub store ns ids).2.1).map (fun r => r.order_id) = ids := by
  intro ids
  induction ids with
  | nil => intro store; rfl
  | cons a rest ih =>
    intro store
    cases hout : (update_status now_iso pub store a ns).result with
    | ok v => simp [bulk_go, hout, ih]
    | error e => simp [bulk_go, hout, ih]

theorem bulk_go_success_count (now_iso : String) (pub : Bool) (ns : String) :
    ∀ (ids : List String) (store : OrderStore),
      (bulk_go now_iso pub store ns ids).2.2
        = ((bulk_go now_iso pub store ns ids).2.1).countP (fun r => r.success) := by
  intro ids
  induction ids with
  | nil => intro store; rfl
  | cons a rest ih =>
    intro store
    cases hout : (update_status now_iso pub store a ns).result with
    | ok v => simp [bulk_go, hout, ih, List.countP_cons]
    | error e => simp [bulk_go, hout, ih, List.countP_cons]

theorem bulk_go_error_recorded (now_iso : String) (pub : Bool) (ns : String) :
    ∀ (ids : List String) (store : OrderStore),
      ∀ r ∈ (bulk_go now_iso pub store ns ids).2.1,
        r.success = false → r.error.isSome = true := by
  intro ids
  induction ids with
  | nil => intro store r hr; simp [bulk_go] at hr
  | cons a rest ih =>
    intro store r hr hfail
    cases hout : (update_status now_iso pub store a ns).result with
    | ok v =>
      simp only [bulk_go, hout, List.mem_cons] at hr
      rcases hr with rfl | hr
      · cases hfail
      · exact ih _ r hr hfail
    | error e =>
      simp only [bulk_go, hout, List.mem_cons] at hr
      rcases hr with rfl | hr
      · rfl
      · exact ih _ r hr hfail

theorem bulk_go_preserve_fail (now_iso : String) (pub : Bool) (ns id : String) :
    ∀ (ids : List String) (store : OrderStore),
      attemptOk store id ns = false →
      storeGet (bulk_go now_iso pub store ns ids).1 id = storeGet store id := by
  intro ids
  induction ids with
  | nil => intro store _; rfl
  | cons a rest ih =>
    intro store h
    cases hout : (update_status now_iso pub store a ns).result with
    | ok v =>
      by_cases hai : a = id
      · exfalso
        subst hai
        have hiso := update_status_isOk now_iso pub store a ns
        rw [hout, h] at hiso
        simp [isOkResult] at hiso
      · have hget : storeGet (update_status now_iso pub store a ns).store id
            = storeGet store id :=
          update_status_store_other now_iso pub store a ns id
            (fun hh => hai hh.symm)
        simp only [bulk_go, hout]
        rw [ih (update_status now_iso pub store a ns).store
          (by rw [attemptOk_congr _ store id ns hget]; exact h), hget]
    | error e =>
      simp only [bulk_go, hout]
      exact ih store h

theorem applyFields_status (now_iso ns : String) (d : OrderDoc) :
    (applyFields now_iso ns d).status = some ns := rfl

theorem attemptOk_exists_doc (store : OrderStore) (id ns : String)
    (h : attemptOk store id ns = true) : ∃ d, storeGet store id = some d := by
  unfold attemptOk at h
  cases hd : storeGet store id with
  | none => rw [hd] at h; cases h
  | some d => exact ⟨d, rfl⟩

theorem bulk_go_no_fail_done (now_iso : String) (pub : Bool) (ns id : String) :
    ∀ (ids : List String) (store : OrderStore) (d : OrderDoc),
      storeGet store id = some d → d.status = some ns →
      ∀ r ∈ (bulk_go now_iso pub store ns ids).2.1,
        r.order_id = id → r.success = true := by
  intro ids
  induction ids with
  | nil => intro store d hd hs r hr; simp [bulk_go] at hr
  | cons a rest ih =>
    intro store d hd hs r hr hrid
    cases hout : (update_status now_iso pub store a ns).result with
    | ok v =>
      simp only [bulk_go, hout, List.mem_cons] at hr
      rcases hr with rfl | hr
      · rfl
      · by_cases hai : a = id
        · subst hai
          have hok : attemptOk store a ns = true := by
            have hiso := update_status_isOk now_iso pub store a ns
            rw [hout] at hiso
            exact hiso.symm
          have h1 := update_status_get_after_ok now_iso pub store a ns d hd hok
          exact ih _ (applyFields now_iso ns d) h1 rfl r hr hrid
        · have hget : storeGet (update_status now_iso pub store a ns).store id
              = storeGet store id :=
            update_status_store_other now_iso pub store a ns id
              (fun hh => hai hh.symm)
          exact ih _ d (by rw [hget]; exact hd) hs r hr hrid
    | error e =>
      simp only [bulk_go, hout, List.mem_cons] at hr
      rcases hr with rfl | hr
      · exfalso
        simp only at hrid
        subst hrid
        have hok := attemptOk_same_status store a ns d hd hs
        have hiso := update_status_isOk now_iso pub store a ns
        rw [hout, hok] at hiso
        simp [isOkResult] at hiso
      · exact ih store d hd hs r hr hrid

theorem bulk_go_fail_unchanged (now_iso : String) (pub : Bool) (ns : String) :
    ∀ (ids : List String) (store : OrderStore) (r : OrderResult),
      r ∈ (bulk_go now_iso pub store ns ids).2.1 → r.success = false →
      storeGet (bulk_go now_iso pub store ns ids).1 r.order_id
        = storeGet store r.order_id := by
  intro ids
  induction ids with
  | nil => intro store r hr; simp [bulk_go] at hr
  | cons a rest ih =>
    intro store r hr hfail
    cases hout : (update_status now_iso pub store a ns).result with
    | ok v =>
      simp only [bulk_go, hout, List.mem_cons] at hr ⊢
      rcases hr with rfl | hr
      · cases hfail
      · by_cases hra : r.order_id = a
        · exfalso
          have hok : attemptOk store a ns = true := by
            have hiso := update_status_isOk now_iso pub store a ns
            rw [hout] at hiso
            exact hiso.symm
          obtain ⟨d, hd⟩ := attemptOk_exists_doc store a ns hok
          have h1 := update_status_get_after_ok now_iso pub store a ns d hd hok
          have := bulk_go_no_fail_done now_iso pub ns a rest
            (update_status now_iso pub store a ns).store
            (applyFields now_iso ns d) h1 rfl r hr hra
          rw [hfail] at this
          cases this
        · have hget : storeGet (update_status now_iso pub store a ns).store r.order_id
              = storeGet store r.order_id :=
            update_status_store_other now_iso pub store a ns r.order_id hra
          rw [ih (update_status now_iso pub store a ns).store r hr hfail, hget]
    | error e =>
      simp only [bulk_go, hout, List.mem_cons] at hr ⊢
      rcases hr with rfl | hr
      · have hfailOk : attemptOk store a ns = false := by
          have hiso := update_status_isOk now_iso pub store a ns
          rw [hout] at hiso
          exact hiso.symm
        exact bulk_go_preserve_fail now_iso pub ns a rest store hfailOk
      · exact ih store r hr hfail

theorem countP_not_success (rs : List OrderResult) :
    rs.countP (fun r => !r.success)
      = rs.length - rs.countP (fun r => r.success) := by
  induction rs with
  | nil => rfl
  | cons r rest ih =>
    have hle := List.countP_le_length (p := fun r : OrderResult => r.success)
      (l := rest)
    cases hs : r.success
    · simp [List.countP_cons, hs, ih]
      omega
    · simp [List.countP_cons, hs, ih]

/-- C2: `bulk_update_status` attempts every member independently and never
aborts: the result's `total` is the input length, the per-order results
line up with the input identifiers in order, `success` counts the
successful members, `failed` counts the members whose attempt raised
(not found or invalid transition, each recorded in the result entry), with
`succeeded = total − failed`, and every failed member's stored document is
unchanged at the end of the call. -/
theorem C2_bulk_update_status (now_iso : String) (pub : Bool)
    (store : OrderStore) (ids : List String) (ns : String) :
    (bulk_update_status now_iso pub store ids ns).2.total = ids.length ∧
    ((bulk_update_status now_iso pub store ids ns).2.results).map
        (fun r => r.order_id) = ids ∧
    (bulk_update_status now_iso pub store ids ns).2.success
      = ((bulk_update_status now_iso pub store ids ns).2.results).countP
          (fun r => r.success) ∧
    (bulk_update_status now_iso pub store ids ns).2.failed
      = ((bulk_update_status now_iso pub store ids ns).2.results).countP
          (fun r => !r.success) ∧
    (bulk_update_status now_iso pub store ids ns).2.success
      = (bulk_update_status now_iso pub store ids ns).2.total
          - (bulk_update_status now_iso pub store ids ns).2.failed ∧
    (∀ r ∈ (bulk_update_status now_iso pub store ids ns).2.results,
      r.success = false →
        r.error.isSome = true ∧
        storeGet (bulk_update_status now_iso pub store ids ns).1 r.order_id
          = storeGet store r.order_id) := by
  have hlen : ((bulk_go now_iso pub store ns ids).2.1).length = ids.length := by
    have h := congrArg List.length (bulk_go_map_id now_iso pub ns ids store)
    rwa [List.length_map] at h
  have hcount := bulk_go_success_count now_iso pub ns ids store
  have hle : ((bulk_go now_iso pub store ns ids).2.1).countP (fun r => r.success)
      ≤ ids.length := by
    rw [← hlen]
    exact List.countP_le_length _
  refine ⟨rfl, bulk_go_map_id now_iso pub ns ids store, hcount, ?_, ?_, ?_⟩
  · show ids.length - (bulk_go now_iso pub store ns ids).2.2
      = ((bulk_go now_iso pub store ns ids).2.1).countP (fun r => !r.success)
    rw [hcount, countP_not_success, hlen]
  · show (bulk_go now_iso pub store ns ids).2.2
      = ids.length - (ids.length - (bulk_go now_iso pub store ns ids).2.2)
    rw [hcount]
    omega
  · intro r hr hfail
    exact ⟨bulk_go_error_recorded now_iso pub ns ids store r hr hfail,
      bulk_go_fail_unchanged now_iso pub ns ids store r hr hfail⟩

theorem C2_bulk_update_status_witness :
    storeGet
        (bulk_update_status "T0" true [("O1", docWith "validated")]
          ["O1", "OX"] "processing").1 "OX"
      = storeGet [("O1", docWith "validated")] "OX" :=
  ((C2_bulk_update_status "T0" true [("O1", docWith "validated")]
      ["O1", "OX"] "processing").2.2.2.2.2
    ⟨"OX", false, some (UpdateError.notFound "OX")⟩ (by decide) rfl).2

theorem update_status_not_found (now_iso : String) (pub : Bool)
    (store : OrderStore) (oid ns : String) (hd : storeGet store oid = none) :
    update_status now_iso pub store oid ns
      = ⟨store, [], [], .error (.notFound oid)⟩ := by
  unfold update_status
  rw [hd]

theorem update_status_shape_notify (now_iso : String) (pub : Bool)
    (store : OrderStore) (oid ns : String) (d : OrderDoc)
    (hd : storeGet store oid = some d)
    (hv : is_valid_transition d.status ns = true)
    (hn : (ns == "shipped" || ns == "delivered") = true) :
    update_status now_iso pub store oid ns
      = ⟨storeUpdate store oid (applyFields now_iso ns), [⟨oid, ns⟩],
          if pub then [⟨oid, ns⟩] else [], .ok ⟨oid, ns⟩⟩ := by
  unfold update_status
  rw [hd]
  cases pub <;> simp [hv, hn, request_communication]

theorem update_status_shape_quiet (now_iso : String) (pub : Bool)
    (store : OrderStore) (oid ns : String) (d : OrderDoc)
    (hd : storeGet store oid = some d)
    (hv : is_valid_transition d.status ns = true)
    (hn : (ns == "shipped" || ns == "delivered") = false) :
    update_status now_iso pub store oid ns
      = ⟨storeUpdate store oid (applyFields now_iso ns), [], [],
          .ok ⟨oid, ns⟩⟩ := by
  unfold update_status
  rw [hd]
  simp [hv, hn]

/-- C3: on a successful transition a notification request is attempted
exactly when the target status is `shipped` or `delivered` (one message,
for that order and event); a publish failure is swallowed — the returned
result, the stored documents and the attempted messages are the same
whether the publish succeeds or fails; and on success the new status has
been persisted regardless of the publish outcome. -/
theorem C3_notification_side_effect (now_iso : String) (pub : Bool)
    (store : OrderStore) (oid ns : String) :
    ((update_status now_iso pub store oid ns).attempted ≠ [] ↔
      (isOkResult (update_status now_iso pub store oid ns).result = true ∧
        (ns = "shipped" ∨ ns = "delivered"))) ∧
    ((update_status now_iso pub store oid ns).attempted = [] ∨
      (update_status now_iso pub store oid ns).attempted
        = [⟨oid, ns⟩]) ∧
    ((update_status now_iso pub store oid ns).result
        = (update_status now_iso true store oid ns).result ∧
      (update_status now_iso pub store oid ns).store
        = (update_status now_iso true store oid ns).store ∧
      (update_status now_iso pub store oid ns).attempted
        = (update_status now_iso true store oid ns).attempted) ∧
    (isOkResult (update_status now_iso pub store oid ns).result = true →
      ∃ d, storeGet store oid = some d ∧
        storeGet (update_status now_iso pub store oid ns).store oid
          = some (applyFields now_iso ns d)) := by
  rcases hd : storeGet store oid with _ | d
  · have hA : ∀ b : Bool, update_status now_iso b store oid ns
        = ⟨store, [], [], .error (.notFound oid)⟩ :=
      fun b => update_status_not_found now_iso b store oid ns hd
    simp [hA, isOkResult]
  · rcases hv : is_valid_transition d.status ns with _ | _
    · have hB : ∀ b : Bool, update_status now_iso b store oid ns
          = ⟨store, [], [], .error (.invalidTransition d.status ns)⟩ :=
        fun b => update_status_invalid now_iso b store oid ns d hd hv
      simp [hB, isOkResult]
    · rcases hn : (ns == "shipped" || ns == "delivered") with _ | _
      · have hD : ∀ b : Bool, update_status now_iso b store oid ns
            = ⟨storeUpdate store oid (applyFields now_iso ns), [], [],
                .ok ⟨oid, ns⟩⟩ :=
          fun b => update_status_shape_quiet now_iso b store oid ns d hd hv hn
        have hn' : ¬ (ns = "shipped" ∨ ns = "delivered") := by
          intro h
          rcases h with h | h <;> subst h <;> simp at hn
        refine ⟨by simp [hD, isOkResult, hn'], Or.inl (by simp [hD]),
          by simp [hD], ?_⟩
        intro _
        refine ⟨d, rfl, ?_⟩
        rw [hD, storeGet_storeUpdate_self, hd]
        rfl
      · have hC : ∀ b : Bool, update_status now_iso b store oid ns
            = ⟨storeUpdate store oid (applyFields now_iso ns), [⟨oid, ns⟩],
                if b then [⟨oid, ns⟩] else [], .ok ⟨oid, ns⟩⟩ :=
          fun b => update_status_shape_notify now_iso b store oid ns d hd hv hn
        have hn' : ns = "shipped" ∨ ns = "delivered" := by
          rcases Bool.or_eq_true _ _ |>.mp hn with h | h
          · exact Or.inl (by simpa using h)
          · exact Or.inr (by simpa using h)
        refine ⟨by simp [hC, isOkResult, hn'], Or.inr (by simp [hC]),
          by simp [hC], ?_⟩
        intro _
        refine ⟨d, rfl, ?_⟩
        rw [hC, storeGet_storeUpdate_self, hd]
        rfl

theorem C3_notification_side_effect_witness :
    ∃ d, storeGet [("O1", docWith "packed")] "O1" = some d ∧
      storeGet (update_status "T0" false [("O1", docWith "packed")]
          "O1" "shipped").store "O1"
        = some (applyFields "T0" "shipped" d) :=
  (C3_notification_side_effect "T0" false [("O1", docWith "packed")]
    "O1" "shipped").2.2.2 (by decide)

/-- C4 fails on the code: with an order in status `processing`, requesting
`exception` succeeds but attempts NO notification-request event — the
processor emits notification requests only for `shipped` and `delivered`
targets, so the attempted-event list is empty, not a single `exception`
event. -/
theorem C4_counterexample :
    isOkResult (update_status "T0" true [("O1", docWith "processing")]
        "O1" "exception").result = true ∧
    (update_status "T0" true [("O1", docWith "processing")]
        "O1" "exception").attempted = [] := by
  constructor
  · rfl
  · rfl

/-- C4 (amended): for every order whose stored status is `processing`, a
requested transition to `exception` succeeds, and no notification-request
event is attempted as part of that transition (notification requests are
emitted only for `shipped` and `delivered` targets). -/
theorem C4_processing_to_exception (now_iso : String) (pub : Bool)
    (store : OrderStore) (oid : String) (d : OrderDoc)
    (hd : storeGet store oid = some d)
    (hs : d.status = some "processing") :
    isOkResult (update_status now_iso pub store oid "exception").result
        = true ∧
    (update_status now_iso pub store oid "exception").attempted = [] := by
  have hv : is_valid_transition d.status "exception" = true := by
    rw [hs]
    decide
  have hn : (("exception" == "shipped") || ("exception" == "delivered"))
      = false := by decide
  constructor
  · rw [update_status_isOk]
    unfold attemptOk
    rw [hd]
    exact hv
  · rw [update_status_shape_quiet now_iso pub store oid "exception" d hd hv hn]

theorem C4_processing_to_exception_witness :
    isOkResult (update_status "T1" false [("O2", docWith "processing")]
        "O2" "exception").result = true ∧
    (update_status "T1" false [("O2", docWith "processing")]
        "O2" "exception").attempted = [] :=
  C4_processing_to_exception "T1" false [("O2", docWith "processing")]
    "O2" (docWith "processing") (by decide) rfl

/-- Keys of a `defaultdict(list)` grouping in first-insertion order
(Python dictionaries preserve insertion order). -/
def keysInOrder : List (String × OrderDoc) → List String
  | [] => []
  | p :: rest => p.1 :: (keysInOrder rest).filter (fun k => !(k == p.1))

/-- The list of values inserted under key `k`, in insertion order. -/
def valuesFor (k : String) (l : List (String × OrderDoc)) : List OrderDoc :=
  (l.filter (fun p => p.1 == k)).map (fun p => p.2)

/-- The `(state, order)` pairs fed into `by_state` by `_batch_by_region`;
`if state:` skips an absent state and also an empty string (falsy). -/
def regionPairs (orders : List OrderDoc) : List (String × OrderDoc) :=
  orders.filterMap (fun o =>
    match o.address_state with
    | some s => if s = "" then none else some (s, o)
    | none => none)

/-- The groups `by_state.items()` of `_batch_by_region`. -/
def regionGroups (orders : List OrderDoc) : List (String × List OrderDoc) :=
  (keysInOrder (regionPairs orders)).map
    (fun st => (st, valuesFor st (regionPairs orders)))

/-- `[o['order_id'] for o in group]`: raises `KeyError` at the first order
missing the field. -/
def getOrderIds : List OrderDoc → Except String (List String)
  | [] => .ok []
  | o :: rest =>
    match o.order_id with
    | none => .error "KeyError: order_id"
    | some i =>
      match getOrderIds rest with
      | .error e => .error e
      | .ok l => .ok (i :: l)

/-- A candidate batch dictionary as built by the strategies. -/
structure BatchDescr where
  type : String
  name : String
  description : String
  orders : List OrderDoc
  order_ids : List String
  count : Nat
  savings_minutes : ℚ
  priority : Option String
deriving Repr, DecidableEq

/-- The dictionary appended by `_batch_by_region` for one state group. -/
def regionDescr (st : String) (g : List OrderDoc) (ids : List String) :
    BatchDescr :=
  ⟨"region", st ++ " Orders", toString g.length ++ " orders to " ++ st,
   g, ids, g.length, (g.length : ℚ) * 2, none⟩

/-- The loop body of `_batch_by_region` over `by_state.items()`. -/
def buildRegion : List (String × List OrderDoc) → Except String (List BatchDescr)
  | [] => .ok []
  | (st, g) :: rest =>
    if 3 ≤ g.length then
      match getOrderIds g with
      | .error e => .error e
      | .ok ids =>
        match buildRegion rest with
        | .error e => .error e
        | .ok bs => .ok (regionDescr st g ids :: bs)
    else buildRegion rest

/-- `BatchAnalyzer._batch_by_region`. -/
def batch_by_region (orders : List OrderDoc) : Except String (List BatchDescr) :=
  buildRegion (regionGroups orders)

/-- `datetime.fromisoformat(order.get('created_at', now.isoformat()))`
followed by the age test `(now - created).total_seconds() / 3600 >= 6`; a
malformed timestamp raises `ValueError`, a missing field defaults to `now`
(age 0).  Times are in seconds, so the test `age/3600 >= 6` is written as
the equivalent `21600 <= now - created` (`age_test_in_seconds` below
proves the equivalence over exact arithmetic). -/
def isUrgent (now : Int) (o : OrderDoc) : Except String Bool :=
  match o.created_at with
  | .malformed _ => .error "ValueError: invalid isoformat string"
  | .missing => .ok (decide ((21600 : Int) ≤ now - now))
  | .parsed t => .ok (decide ((21600 : Int) ≤ now - t))

/-- Total variant of the urgency test (the malformed case is never reached
on the success path). -/
def isUrgentB (now : Int) (o : OrderDoc) : Bool :=
  match o.created_at with
  | .malformed _ => false
  | .missing => decide ((21600 : Int) ≤ now - now)
  | .parsed t => decide ((21600 : Int) ≤ now - t)

theorem age_test_in_seconds (k : Int) :
    ((6 : ℚ) ≤ (k : ℚ) / 3600) ↔ (21600 : Int) ≤ k := by
  rw [le_div_iff₀ (by norm_num : (0 : ℚ) < 3600)]
  constructor
  · intro h
    exact_mod_cast h
  · intro h
    have : ((21600 : Int) : ℚ) ≤ (k : ℚ) := by exact_mod_cast h
    calc (6 : ℚ) * 3600 = ((21600 : Int) : ℚ) := by norm_num
      _ ≤ (k : ℚ) := this

/-- The accumulation of `urgent_orders` in `_batch_by_urgency`. -/
def urgentFilter (now : Int) : List OrderDoc → Except String (List OrderDoc)
  | [] => .ok []
  | o :: rest =>
    match isUrgent now o with
    | .error e => .error e
    | .ok b =>
      match urgentFilter now rest with
      | .error e => .error e
      | .ok us => .ok (if b then o :: us else us)

/-- The dictionary appended by `_batch_by_urgency`. -/
def urgencyDescr (g : List OrderDoc) (ids : List String) : BatchDescr :=
  ⟨"urgency", "Urgent Orders",
   toString g.length ++ " orders need immediate attention",
   g, ids, g.length, (g.length : ℚ) * 3, some "high"⟩

/-- `BatchAnalyzer._batch_by_urgency`. -/
def batch_by_urgency (now : Int) (orders : List OrderDoc) :
    Except String (List BatchDescr) :=
  match urgentFilter now orders with
  | .error e => .error e
  | .ok urgent =>
    if 2 ≤ urgent.length then
      match getOrderIds urgent with
      | .error e => .error e
      | .ok ids => .ok [urgencyDescr urgent ids]
    else .ok []

/-- The `(sku, order)` pairs fed into `by_sku` by `_batch_by_products`:
one pair per line item carrying a truthy sku, so an order is inserted once
per matching item. -/
def skuPairs (orders : List OrderDoc) : List (String × OrderDoc) :=
  (orders.map (fun o => o.items.filterMap (fun it =>
    match it.sku with
    | some s => if s = "" then none else some (s, o)
    | none => none))).flatten

/-- The groups `by_sku.items()` of `_batch_by_products`. -/
def skuGroups (orders : List OrderDoc) : List (String × List OrderDoc) :=
  (keysInOrder (skuPairs orders)).map
    (fun sku => (sku, valuesFor sku (skuPairs orders)))

/-- `sku_orders[0].get('items', [{}])[0].get('name', sku)`.  A group member
always carries at least one line item (that is how it entered the group),
so the empty cases are unreachable on groups produced by `skuGroups`; an
order whose `items` list is present but empty would raise `IndexError`. -/
def productName (sku : String) (g : List OrderDoc) : Except String String :=
  match g with
  | [] => .error "IndexError: list index out of range"
  | o :: _ =>
    match o.items with
    | [] => .error "IndexError: list index out of range"
    | it :: _ => .ok (it.name.getD sku)

/-- Total variant of `productName`, equal to it whenever the latter
succeeds. -/
def productNameT (sku : String) (g : List OrderDoc) : String :=
  match g with
  | [] => sku
  | o :: _ =>
    match o.items with
    | [] => sku
    | it :: _ => it.name.getD sku

/-- The dictionary appended by `_batch_by_products` for one sku group. -/
def productDescr (pname : String) (g : List OrderDoc) (ids : List String) :
    BatchDescr :=
  ⟨"product", pname ++ " Orders",
   toString g.length ++ " orders containing " ++ pname,
   g, ids, g.length, (g.length : ℚ) * 1.5, none⟩

/-- The loop body of `_batch_by_products` over `by_sku.items()`. -/
def buildProducts :
    List (String × List OrderDoc) → Except String (List BatchDescr)
  | [] => .ok []
  | (sku, g) :: rest =>
    if 3 ≤ g.length then
      match productName sku g with
      | .error e => .error e
      | .ok pname =>
        match getOrderIds g with
        | .error e => .error e
        | .ok ids =>
          match buildProducts rest with
          | .error e => .error e
          | .ok bs => .ok (productDescr pname g ids :: bs)
    else buildProducts rest

/-- `BatchAnalyzer._batch_by_products`. -/
def batch_by_products (orders : List OrderDoc) :
    Except String (List BatchDescr) :=
  buildProducts (skuGroups orders)

/-- The score function of `BatchAnalyzer._rank_batches`. -/
def score (b : BatchDescr) : ℚ :=
  let s1 := b.savings_minutes
  let s2 := if b.priority == some "high" then s1 * 2 else s1
  if 10 < b.count then s2 * 1.5 else s2

/-- `BatchAnalyzer._rank_batches`: `sorted(..., key=score, reverse=True)`,
a stable descending sort by score. -/
def rank_batches (batches : List BatchDescr) : List BatchDescr :=
  batches.mergeSort (fun a b => decide (score b ≤ score a))

/-- The working set of `suggest_batches`: orders with status `validated`,
capped at 100. -/
def workingSet (docs : List OrderDoc) : List OrderDoc :=
  (docs.filter (fun o => o.status == some "validated")).take 100

/-- The body of the `try` block of `suggest_batches` after the working set
is known to be non-empty: run the three strategies, concatenate, rank. -/
def suggest_pipeline (now : Int) (orders : List OrderDoc) :
    Except String (List BatchDescr) :=
  match batch_by_region orders with
  | .error e => .error e
  | .ok rb =>
    match batch_by_urgency now orders with
    | .error e => .error e
    | .ok ub =>
      match batch_by_products orders with
      | .error e => .error e
      | .ok pb => .ok (rank_batches (rb ++ ub ++ pb))

/-- `BatchAnalyzer.suggest_batches`: empty working set returns `[]`; any
exception inside the `try` is caught and `[]` is returned; otherwise the
top 10 ranked candidates. -/
def suggest_batches (now : Int) (docs : List OrderDoc) : List BatchDescr :=
  let orders := workingSet docs
  if orders.isEmpty then []
  else
    match suggest_pipeline now orders with
    | .ok ranked => ranked.take 10
    | .error _ => []

/-- Whether a `created_at` field would make `fromisoformat` raise. -/
def isMalformedCA : CreatedAt → Bool
  | .malformed _ => true
  | _ => false

theorem isUrgent_ok (now : Int) (o : OrderDoc)
    (h : isMalformedCA o.created_at = false) :
    isUrgent now o = .ok (isUrgentB now o) := by
  cases hca : o.created_at with
  | malformed s => rw [hca] at h; cases h
  | missing => simp [isUrgent, isUrgentB, hca]
  | parsed t => simp [isUrgent, isUrgentB, hca]

theorem getOrderIds_ok (g : List OrderDoc)
    (h : ∀ o ∈ g, (o.order_id).isSome = true) :
    getOrderIds g = .ok (g.filterMap (fun o => o.order_id)) := by
  induction g with
  | nil => rfl
  | cons o rest ih =>
    have ho := h o (List.mem_cons_self o rest)
    cases hid : o.order_id with
    | none => rw [hid] at ho; cases ho
    | some i =>
      have ihr := ih (fun o' ho' => h o' (List.mem_cons_of_mem o ho'))
      simp [getOrderIds, hid, ihr, List.filterMap_cons]

theorem mem_valuesFor (k : String) (l : List (String × OrderDoc))
    (o : OrderDoc) (h : o ∈ valuesFor k l) : (k, o) ∈ l := by
  unfold valuesFor at h
  simp only [List.mem_map, List.mem_filter] at h
  obtain ⟨p, ⟨hpl, hpk⟩, hpo⟩ := h
  have hp : p = (k, o) := by
    obtain ⟨p1, p2⟩ := p
    simp only [beq_iff_eq] at hpk
    simp only at hpo
    rw [Prod.mk.injEq]
    exact ⟨hpk, hpo⟩
  rw [← hp]
  exact hpl

theorem mem_regionPairs (orders : List OrderDoc) (s : String) (o : OrderDoc)
    (h : (s, o) ∈ regionPairs orders) : o ∈ orders := by
  unfold regionPairs at h
  simp only [List.mem_filterMap] at h
  obtain ⟨o', ho', heq⟩ := h
  cases hst : o'.address_state with
  | none => rw [hst] at heq; cases heq
  | some st =>
    rw [hst] at heq
    by_cases he : st = ""
    · simp [he] at heq
    · simp only [he, if_false, Option.some.injEq, Prod.mk.injEq] at heq
      rw [← heq.2]
      exact ho'

theorem mem_skuPairs (orders : List OrderDoc) (s : String) (o : OrderDoc)
    (h : (s, o) ∈ skuPairs orders) : o ∈ orders ∧ o.items ≠ [] := by
  unfold skuPairs at h
  simp only [List.mem_flatten, List.mem_map] at h
  obtain ⟨l, ⟨o', ho', hl⟩, hmem⟩ := h
  rw [← hl] at hmem
  simp only [List.mem_filterMap] at hmem
  obtain ⟨it, hit, heq⟩ := hmem
  cases hsku : it.sku with
  | none => rw [hsku] at heq; cases heq
  | some sk =>
    rw [hsku] at heq
    by_cases he : sk = ""
    · simp [he] at heq
    · simp only [he, if_false, Option.some.injEq, Prod.mk.injEq] at heq
      rw [← heq.2]
      exact ⟨ho', fun hnil => by rw [hnil] at hit; cases hit⟩

theorem regionGroups_members (orders : List OrderDoc) :
    ∀ p ∈ regionGroups orders, ∀ o ∈ p.2, o ∈ orders := by
  intro p hp o ho
  unfold regionGroups at hp
  simp only [List.mem_map] at hp
  obtain ⟨st, _, hpe⟩ := hp
  rw [← hpe] at ho
  exact mem_regionPairs orders st o (mem_valuesFor st _ o ho)

theorem skuGroups_members (orders : List OrderDoc) :
    ∀ p ∈ skuGroups orders, ∀ o ∈ p.2, o ∈ orders ∧ o.items ≠ [] := by
  intro p hp o ho
  unfold skuGroups at hp
  simp only [List.mem_map] at hp
  obtain ⟨sku, _, hpe⟩ := hp
  rw [← hpe] at ho
  exact mem_skuPairs orders sku o (mem_valuesFor sku _ o ho)

theorem buildRegion_ok (gl : List (String × List OrderDoc))
    (h : ∀ p ∈ gl, ∀ o ∈ p.2, (o.order_id).isSome = true) :
    buildRegion gl = .ok ((gl.filter (fun p => 3 ≤ p.2.length)).map
      (fun p => regionDescr p.1 p.2 (p.2.filterMap (fun o => o.order_id)))) := by
  induction gl with
  | nil => rfl
  | cons p rest ih =>
    obtain ⟨st, g⟩ := p
    have hg : ∀ o ∈ g, (o.order_id).isSome = true :=
      h (st, g) (List.mem_cons_self _ _)
    have hrest := ih (fun q hq => h q (List.mem_cons_of_mem _ hq))
    by_cases h3 : 3 ≤ g.length
    · simp [buildRegion, h3, getOrderIds_ok g hg, hrest, List.filter_cons]
    · simp [buildRegion, h3, hrest, List.filter_cons]

theorem buildRegion_shape (gl : List (String × List OrderDoc))
    (bs : List BatchDescr) (hok : buildRegion gl = .ok bs) :
    ∀ b ∈ bs, b.type = "region" ∧ 3 ≤ b.count ∧ b.count = b.orders.length ∧
      b.savings_minutes = (b.count : ℚ) * 2 ∧ b.priority = none := by
  induction gl generalizing bs with
  | nil =>
    simp only [buildRegion, Except.ok.injEq] at hok
    subst hok
    intro b hb
    cases hb
  | cons p rest ih =>
    obtain ⟨st, g⟩ := p
    simp only [buildRegion] at hok
    by_cases h3 : 3 ≤ g.length
    · rw [if_pos h3] at hok
      cases hids : getOrderIds g with
      | error e => simp [hids] at hok
      | ok ids =>
        simp only [hids] at hok
        cases hr : buildRegion rest with
        | error e => simp [hr] at hok
        | ok bs' =>
          simp only [hr, Except.ok.injEq] at hok
          subst hok
          intro b hb
          rcases List.mem_cons.mp hb with rfl | hb
          · exact ⟨rfl, h3, rfl, rfl, rfl⟩
          · exact ih bs' hr b hb
    · rw [if_neg h3] at hok
      exact ih bs hok

theorem buildProducts_ok (gl : List (String × List OrderDoc))
    (h : ∀ p ∈ gl, ∀ o ∈ p.2, (o.order_id).isSome = true ∧ o.items ≠ []) :
    buildProducts gl = .ok ((gl.filter (fun p => 3 ≤ p.2.length)).map
      (fun p => productDescr (productNameT p.1 p.2) p.2
        (p.2.filterMap (fun o => o.order_id)))) := by
  induction gl with
  | nil => rfl
  | cons p rest ih =>
    obtain ⟨sku, g⟩ := p
    have hg : ∀ o ∈ g, (o.order_id).isSome = true ∧ o.items ≠ [] :=
      h (sku, g) (List.mem_cons_self _ _)
    have hrest := ih (fun q hq => h q (List.mem_cons_of_mem _ hq))
    by_cases h3 : 3 ≤ g.length
    · have hname : productName sku g = .ok (productNameT sku g) := by
        cases g with
        | nil => simp at h3
        | cons o g' =>
          cases hit : o.items with
          | nil =>
            exact absurd hit (hg o (List.mem_cons_self _ _)).2
          | cons it rest' => simp [productName, productNameT, hit]
      have hids : getOrderIds g = .ok (g.filterMap (fun o => o.order_id)) :=
        getOrderIds_ok g (fun o ho => (hg o ho).1)
      simp [buildProducts, h3, hname, hids, hrest, List.filter_cons]
    · simp [buildProducts, h3, hrest, List.filter_cons]

theorem buildProducts_shape (gl : List (String × List OrderDoc))
    (bs : List BatchDescr) (hok : buildProducts gl = .ok bs) :
    ∀ b ∈ bs, b.type = "product" ∧ 3 ≤ b.count ∧ b.count = b.orders.length ∧
      b.savings_minutes = (b.count : ℚ) * 1.5 ∧ b.priority = none := by
  induction gl generalizing bs with
  | nil =>
    simp only [buildProducts, Except.ok.injEq] at hok
    subst hok
    intro b hb
    cases hb
  | cons p rest ih =>
    obtain ⟨sku, g⟩ := p
    simp only [buildProducts] at hok
    by_cases h3 : 3 ≤ g.length
    · rw [if_pos h3] at hok
      cases hname : productName sku g with
      | error e => simp [hname] at hok
      | ok pname =>
        simp only [hname] at hok
        cases hids : getOrderIds g with
        | error e => simp [hids] at hok
        | ok ids =>
          simp only [hids] at hok
          cases hr : buildProducts rest with
          | error e => simp [hr] at hok
          | ok bs' =>
            simp only [hr, Except.ok.injEq] at hok
            subst hok
            intro b hb
            rcases List.mem_cons.mp hb with rfl | hb
            · exact ⟨rfl, h3, rfl, rfl, rfl⟩
            · exact ih bs' hr b hb
    · rw [if_neg h3] at hok
      exact ih bs hok

theorem urgentFilter_ok_val (now : Int) :
    ∀ (orders : List OrderDoc) (us : List OrderDoc),
      urgentFilter now orders = .ok us →
      us = orders.filter (fun o => isUrgentB now o) := by
  intro orders
  induction orders with
  | nil =>
    intro us h
    simp only [urgentFilter, Except.ok.injEq] at h
    rw [← h]
    rfl
  | cons o rest ih =>
    intro us h
    simp only [urgentFilter] at h
    cases hiu : isUrgent now o with
    | error e => simp [hiu] at h
    | ok b =>
      simp only [hiu] at h
      cases hrest : urgentFilter now rest with
      | error e => simp [hrest] at h
      | ok us' =>
        simp only [hrest, Except.ok.injEq] at h
        have hb : b = isUrgentB now o := by
          cases hca : o.created_at with
          | malformed s => simp [isUrgent, hca] at hiu
          | missing =>
            simp only [isUrgent, hca, Except.ok.injEq] at hiu
            rw [← hiu]
            simp [isUrgentB, hca]
          | parsed t =>
            simp only [isUrgent, hca, Except.ok.injEq] at hiu
            rw [← hiu]
            simp [isUrgentB, hca]
        subst hb
        rw [← h, ih us' hrest]
        cases hub : isUrgentB now o <;> simp [List.filter_cons, hub]

theorem urgentFilter_ok_of_clean (now : Int) :
    ∀ (orders : List OrderDoc),
      (∀ o ∈ orders, isMalformedCA o.created_at = false) →
      urgentFilter now orders
        = .ok (orders.filter (fun o => isUrgentB now o)) := by
  intro orders
  induction orders with
  | nil => intro _; rfl
  | cons o rest ih =>
    intro h
    have ho := isUrgent_ok now o (h o (List.mem_cons_self _ _))
    have hrest := ih (fun o' ho' => h o' (List.mem_cons_of_mem _ ho'))
    cases hub : isUrgentB now o <;>
      simp [urgentFilter, ho, hrest, List.filter_cons, hub]

theorem urgentFilter_error_of_malformed (now : Int) :
    ∀ (orders : List OrderDoc),
      (∃ o ∈ orders, isMalformedCA o.created_at = true) →
      ∃ e, urgentFilter now orders = .error e := by
  intro orders
  induction orders with
  | nil => intro ⟨o, ho, _⟩; cases ho
  | cons o rest ih =>
    intro ⟨o', ho', hmal⟩
    rcases List.mem_cons.mp ho' with rfl | ho'
    · cases hca : o'.created_at with
      | malformed s =>
        exact ⟨"ValueError: invalid isoformat string",
          by simp [urgentFilter, isUrgent, hca]⟩
      | missing => rw [hca] at hmal; cases hmal
      | parsed t => rw [hca] at hmal; cases hmal
    · cases hmo : isMalformedCA o.created_at with
      | true =>
        cases hca : o.created_at with
        | malformed s =>
          exact ⟨"ValueError: invalid isoformat string",
            by simp [urgentFilter, isUrgent, hca]⟩
        | missing => rw [hca] at hmo; cases hmo
        | parsed t => rw [hca] at hmo; cases hmo
      | false =>
        obtain ⟨e, he⟩ := ih ⟨o', ho', hmal⟩
        exact ⟨e, by simp [urgentFilter, isUrgent_ok now o hmo, he]⟩

theorem batch_by_urgency_shape (now : Int) (orders : List OrderDoc)
    (bs : List BatchDescr) (hok : batch_by_urgency now orders = .ok bs) :
    bs.length ≤ 1 ∧
    ∀ b ∈ bs, b.type = "urgency" ∧ 2 ≤ b.count ∧ b.count = b.orders.length ∧
      b.savings_minutes = (b.count : ℚ) * 3 ∧ b.priority = some "high" ∧
      b.orders = orders.filter (fun o => isUrgentB now o) := by
  unfold batch_by_urgency at hok
  cases huf : urgentFilter now orders with
  | error e => simp [huf] at hok
  | ok us =>
    simp only [huf] at hok
    have husval := urgentFilter_ok_val now orders us huf
    by_cases h2 : 2 ≤ us.length
    · rw [if_pos h2] at hok
      cases hids : getOrderIds us with
      | error e => simp [hids] at hok
      | ok ids =>
        simp only [hids, Except.ok.injEq] at hok
        subst hok
        refine ⟨by simp, ?_⟩
        intro b hb
        simp only [List.mem_singleton] at hb
        subst hb
        exact ⟨rfl, h2, rfl, rfl, rfl, by simp [urgencyDescr, husval]⟩
    · rw [if_neg h2] at hok
      simp only [Except.ok.injEq] at hok
      subst hok
      exact ⟨by simp, fun b hb => by cases hb⟩

/-- C5: over any working set, region candidates are exactly one per state
group of at least 3 members with savings `2 × memberCount` and no priority
flag; the urgency strategy emits at most one candidate, spanning exactly
the orders aged at least 6 hours, only when there are at least 2 of them,
with savings `3 × memberCount` and priority `high`; product candidates are
exactly one per sku group of at least 3 members with savings
`1.5 × memberCount`; and no strategy emits a candidate below its
threshold. -/
theorem C5_strategy_thresholds (now : Int) (orders : List OrderDoc) :
    (∀ bs, batch_by_region orders = Except.ok bs → ∀ b ∈ bs,
      b.type = "region" ∧ 3 ≤ b.count ∧ b.count = b.orders.length ∧
      b.savings_minutes = (b.count : ℚ) * 2 ∧ b.priority = none) ∧
    (∀ bs, batch_by_urgency now orders = Except.ok bs →
      bs.length ≤ 1 ∧
      ∀ b ∈ bs, b.type = "urgency" ∧ 2 ≤ b.count ∧ b.count = b.orders.length ∧
        b.savings_minutes = (b.count : ℚ) * 3 ∧ b.priority = some "high" ∧
        b.orders = orders.filter (fun o => isUrgentB now o)) ∧
    (∀ bs, batch_by_products orders = Except.ok bs → ∀ b ∈ bs,
      b.type = "product" ∧ 3 ≤ b.count ∧ b.count = b.orders.length ∧
      b.savings_minutes = (b.count : ℚ) * 1.5 ∧ b.priority = none) ∧
    ((∀ o ∈ orders, (o.order_id).isSome = true) →
      batch_by_region orders = Except.ok
        (((regionGroups orders).filter (fun p => 3 ≤ p.2.length)).map
          (fun p => regionDescr p.1 p.2 (p.2.filterMap (fun o => o.order_id)))) ∧
      batch_by_products orders = Except.ok
        (((skuGroups orders).filter (fun p => 3 ≤ p.2.length)).map
          (fun p => productDescr (productNameT p.1 p.2) p.2
            (p.2.filterMap (fun o => o.order_id)))) ∧
      ((∀ o ∈ orders, isMalformedCA o.created_at = false) →
        batch_by_urgency now orders = Except.ok
          (if 2 ≤ (orders.filter (fun o => isUrgentB now o)).length then
            [urgencyDescr (orders.filter (fun o => isUrgentB now o))
              ((orders.filter (fun o => isUrgentB now o)).filterMap
                (fun o => o.order_id))]
           else []))) := by
  refine ⟨fun bs hok => buildRegion_shape _ bs hok,
    fun bs hok => batch_by_urgency_shape now orders bs hok,
    fun bs hok => buildProducts_shape _ bs hok, ?_⟩
  intro hids
  refine ⟨buildRegion_ok _
      (fun p hp o ho => hids o (regionGroups_members orders p hp o ho)),
    buildProducts_ok _
      (fun p hp o ho => ⟨hids o (skuGroups_members orders p hp o ho).1,
        (skuGroups_members orders p hp o ho).2⟩), ?_⟩
  intro hclean
  have hg := getOrderIds_ok (orders.filter (fun o => isUrgentB now o))
    (fun o ho => hids o (List.mem_filter.mp ho).1)
  unfold batch_by_urgency
  rw [urgentFilter_ok_of_clean now orders hclean]
  by_cases h2 : 2 ≤ (orders.filter (fun o => isUrgentB now o)).length
  · simp only [if_pos h2, hg]
  · simp only [if_neg h2]

/-- A sample validated order in region CA used by concrete witnesses. -/
def sCA (i : String) : OrderDoc :=
  ⟨some i, some "validated", some "CA", .parsed 0, [], none, none⟩

theorem C5_strategy_thresholds_witness :
    batch_by_region [sCA "A", sCA "B", sCA "C"] = Except.ok
      (((regionGroups [sCA "A", sCA "B", sCA "C"]).filter
          (fun p => 3 ≤ p.2.length)).map
        (fun p => regionDescr p.1 p.2
          (p.2.filterMap (fun o => o.order_id)))) :=
  ((C5_strategy_thresholds 0 [sCA "A", sCA "B", sCA "C"]).2.2.2
    (by decide)).1


theorem rank_le_trans : ∀ a b c : BatchDescr,
    decide (score b ≤ score a) = true → decide (score c ≤ score b) = true →
    decide (score c ≤ score a) = true := by
  intro a b c hab hbc
  rw [decide_eq_true_eq] at hab hbc ⊢
  exact le_trans hbc hab

theorem rank_le_total : ∀ a b : BatchDescr,
    (decide (score b ≤ score a) || decide (score a ≤ score b)) = true := by
  intro a b
  rcases le_total (score a) (score b) with h | h <;> simp [h]

theorem rank_batches_filter_eq (bs : List BatchDescr) (q : ℚ) :
    (rank_batches bs).filter (fun b => score b == q)
      = bs.filter (fun b => score b == q) := by
  have hall : ∀ x ∈ bs.filter (fun b => score b == q), score x = q := by
    intro x hx
    have h := (List.mem_filter.mp hx).2
    simpa using h
  have hpair : (bs.filter (fun b => score b == q)).Pairwise
      (fun a b => decide (score b ≤ score a) = true) := by
    apply List.pairwise_of_forall_mem_list
    intro a ha b hb
    rw [decide_eq_true_eq, hall a ha, hall b hb]
  have hsub2 : List.Sublist (bs.filter (fun b => score b == q))
      (rank_batches bs) := by
    unfold rank_batches
    exact List.sublist_mergeSort rank_le_trans rank_le_total hpair
      (List.filter_sublist bs)
  have hself : (bs.filter (fun b => score b == q)).filter
      (fun b => score b == q) = bs.filter (fun b => score b == q) := by
    apply List.filter_eq_self.mpr
    intro a ha
    have h := hall a ha
    simp [h]
  have hsub3 : List.Sublist (bs.filter (fun b => score b == q))
      ((rank_batches bs).filter (fun b => score b == q)) := by
    rw [← hself]
    exact hsub2.filter (fun b => score b == q)
  have hperm : List.Perm ((rank_batches bs).filter (fun b => score b == q))
      (bs.filter (fun b => score b == q)) := by
    unfold rank_batches
    exact (List.mergeSort_perm bs _).filter (fun b => score b == q)
  exact (hsub3.eq_of_length hperm.length_eq.symm).symm

theorem suggest_batches_length_le (now : Int) (docs : List OrderDoc) :
    (suggest_batches now docs).length ≤ 10 := by
  simp only [suggest_batches]
  split
  · simp
  · split
    · simp [List.length_take]
    · simp

/-- C6: `_rank_batches` returns the same candidates (a permutation of its
input, which `suggest_batches` builds as region ++ urgency ++ product),
sorted non-increasingly by the score function (savings, doubled for high
priority, then ×1.5 for more than 10 members); candidates of equal score
keep their insertion order (the filter at any fixed score is unchanged);
and `suggest_batches` returns at most 10 entries. -/
theorem C6_ranking (bs : List BatchDescr) (now : Int) (docs : List OrderDoc) :
    (rank_batches bs).Pairwise (fun a b => score b ≤ score a) ∧
    List.Perm (rank_batches bs) bs ∧
    (∀ q : ℚ, (rank_batches bs).filter (fun b => score b == q)
      = bs.filter (fun b => score b == q)) ∧
    (suggest_batches now docs).length ≤ 10 := by
  refine ⟨?_, ?_, fun q => rank_batches_filter_eq bs q,
    suggest_batches_length_le now docs⟩
  · have h2 : (rank_batches bs).Pairwise
        (fun a b => decide (score b ≤ score a) = true) :=
      List.sorted_mergeSort rank_le_trans rank_le_total bs
    exact h2.imp (fun hab => of_decide_eq_true hab)
  · exact List.mergeSort_perm bs _

/-- A validated order whose `created_at` cannot be parsed. -/
def sBad : OrderDoc :=
  ⟨some "D", some "validated", none, .malformed "not-a-timestamp", [],
   none, none⟩

/-- C7 fails on the code: with three qualifying CA orders plus one order
whose `created_at` is malformed, `suggest_batches` returns the empty list
(the `ValueError` raised inside `_batch_by_urgency` reaches the per-call
`except`, which returns `[]`), even though the region strategy alone
produces a candidate from the three well-formed orders. -/
theorem C7_counterexample :
    suggest_batches 0 [sCA "A", sCA "B", sCA "C", sBad] = [] ∧
    batch_by_region [sCA "A", sCA "B", sCA "C"]
      = .ok [regionDescr "CA" [sCA "A", sCA "B", sCA "C"] ["A", "B", "C"]] :=
  ⟨rfl, rfl⟩

/-- C7 (amended): a malformed order is not skipped individually — the
exception propagates to the catch-all of `suggest_batches`, which blanks
the whole result: whenever every member of the working set carries an
order id but some member's `created_at` is malformed, `suggest_batches`
returns `[]` even if other orders qualify for candidates. -/
theorem C7_malformed_blanks_suggestions (now : Int) (docs : List OrderDoc)
    (hids : ∀ o ∈ workingSet docs, (o.order_id).isSome = true)
    (hmal : ∃ o ∈ workingSet docs, isMalformedCA o.created_at = true) :
    suggest_batches now docs = [] := by
  obtain ⟨o, ho, hm⟩ := hmal
  have hne : (workingSet docs).isEmpty = false := by
    cases hws : workingSet docs with
    | nil => rw [hws] at ho; cases ho
    | cons a rest => rfl
  obtain ⟨rb, hreg⟩ : ∃ rb, batch_by_region (workingSet docs) = .ok rb :=
    ⟨_, buildRegion_ok (regionGroups (workingSet docs))
      (fun p hp o' ho' => hids o' (regionGroups_members _ p hp o' ho'))⟩
  obtain ⟨e, hue⟩ :=
    urgentFilter_error_of_malformed now (workingSet docs) ⟨o, ho, hm⟩
  have hurg : batch_by_urgency now (workingSet docs) = .error e := by
    unfold batch_by_urgency
    simp only [hue]
  have hpip : suggest_pipeline now (workingSet docs) = .error e := by
    unfold suggest_pipeline
    simp only [hreg, hurg]
  simp [suggest_batches, hne, hpip]

theorem C7_malformed_blanks_suggestions_witness :
    suggest_batches 0 [sCA "E", sCA "F", sCA "G", sBad] = [] :=
  C7_malformed_blanks_suggestions 0 [sCA "E", sCA "F", sCA "G", sBad]
    (by decide) ⟨sBad, by decide, rfl⟩

/-- The JSON body of a `/api/batches/create` request. -/
structure CreateBatchRequest where
  name : Option String
  description : Option String
  type : Option String
  order_ids : Option (List String)
deriving Repr, DecidableEq

/-- A batch document as persisted in the `batches` collection. -/
structure BatchDoc where
  batch_id : String
  name : String
  description : String
  type : String
  order_ids : List String
  order_count : Nat
  status : String
  created_at : String
  created_by : String
deriving Repr, DecidableEq

/-- The `batches` collection. -/
abbrev BatchStore := List (String × BatchDoc)

/-- `BatchAnalyzer.create_batch`: builds and persists the batch document;
a missing `name` or `order_ids` key raises `KeyError` (logged and
re-raised).  `now_id` models the timestamp-derived identifier suffix and
`now_iso` the creation timestamp. -/
def analyzer_create_batch (now_id now_iso : String)
    (data : CreateBatchRequest) : Except String (String × BatchDoc) :=
  let batch_id := "BATCH-" ++ now_id
  match data.name with
  | none => .error "KeyError: name"
  | some nm =>
    match data.order_ids with
    | none => .error "KeyError: order_ids"
    | some ids =>
      .ok (batch_id,
        ⟨batch_id, nm, data.description.getD "", data.type.getD "manual",
         ids, ids.length, "active", now_iso, "ADK-002"⟩)

/-- An HTTP response of the create route. -/
inductive RouteResponse where
  | ok (batch_id : String)
  | badRequest (msg : String)
  | serverError (msg : String)
deriving Repr, DecidableEq

/-- The Python falsy test `not data.get('order_ids')`: true for a missing
key and also for an empty list. -/
def orderIdsFalsy : Option (List String) → Bool
  | none => true
  | some [] => true
  | some (_ :: _) => false

/-- The `/api/batches/create` route handler (`create_batch`). -/
def create_batch_route (now_id now_iso : String) (data : CreateBatchRequest)
    (store : BatchStore) : BatchStore × RouteResponse :=
  if orderIdsFalsy data.order_ids then
    (store, .badRequest "order_ids required")
  else
    match analyzer_create_batch now_id now_iso data with
    | .ok (bid, doc) => (store ++ [(bid, doc)], .ok bid)
    | .error e => (store, .serverError e)

/-- C8 fails on the code: `createBatch` called through the API with an
empty member-order list does not succeed and persists nothing — the route
guard `if not data.get('order_ids')` treats an empty list like a missing
field and answers 400 `order_ids required`. -/
theorem C8_counterexample :
    create_batch_route "X" "T0" ⟨some "Empty Batch", none, none, some []⟩ []
      = ([], RouteResponse.badRequest "order_ids required") := rfl

/-- C8 (amended): the route rejects an empty member-order list exactly
like a missing one (400, store unchanged), so no batch with member count 0
can be created through the API; only the inner `BatchAnalyzer.create_batch`
enforces no minimum size and, invoked directly with an empty list,
produces a batch document with `order_count = 0`. -/
theorem C8_create_batch_empty (now_id now_iso : String)
    (data : CreateBatchRequest) (store : BatchStore) :
    ((data.order_ids = none ∨ data.order_ids = some []) →
      create_batch_route now_id now_iso data store
        = (store, .badRequest "order_ids required")) ∧
    (∀ nm, data.name = some nm → data.order_ids = some [] →
      analyzer_create_batch now_id now_iso data
        = .ok ("BATCH-" ++ now_id,
            ⟨"BATCH-" ++ now_id, nm, data.description.getD "",
             data.type.getD "manual", [], 0, "active", now_iso,
             "ADK-002"⟩)) := by
  constructor
  · intro h
    have hf : orderIdsFalsy data.order_ids = true := by
      rcases h with h | h <;> rw [h] <;> rfl
    unfold create_batch_route
    rw [if_pos hf]
  · intro nm hnm hids
    unfold analyzer_create_batch
    rw [hnm, hids]
    rfl

theorem C8_create_batch_empty_witness :
    create_batch_route "X1" "T1" ⟨some "B", some "d", some "manual", some []⟩
        [] = ([], .badRequest "order_ids required") ∧
    analyzer_create_batch "X1" "T1"
        ⟨some "B", some "d", some "manual", some []⟩
      = .ok ("BATCH-" ++ "X1",
          ⟨"BATCH-" ++ "X1", "B", "d", "manual", [], 0, "active", "T1",
           "ADK-002"⟩) :=
  ⟨(C8_create_batch_empty "X1" "T1"
      ⟨some "B", some "d", some "manual", some []⟩ []).1 (Or.inr rfl),
   (C8_create_batch_empty "X1" "T1"
      ⟨some "B", some "d", some "manual", some []⟩ []).2 "B" rfl rfl⟩

theorem buildProducts_small (gl : List (String × List OrderDoc))
    (h : ∀ p ∈ gl, p.2.length < 3) : buildProducts gl = .ok [] := by
  induction gl with
  | nil => rfl
  | cons p rest ih =>
    obtain ⟨sku, g⟩ := p
    have h3 : ¬ 3 ≤ g.length := by
      have h2 : g.length < 3 := h (sku, g) (List.mem_cons_self _ _)
      omega
    simp [buildProducts, h3,
      ih (fun q hq => h q (List.mem_cons_of_mem _ hq))]

theorem regionPairs_const (r : String) (hr : r ≠ "") :
    ∀ (orders : List OrderDoc), (∀ o ∈ orders, o.address_state = some r) →
    regionPairs orders = orders.map (fun o => (r, o)) := by
  intro orders
  induction orders with
  | nil => intro _; rfl
  | cons o rest ih =>
    intro h
    have ho := h o (List.mem_cons_self _ _)
    have hrest := ih (fun o' ho' => h o' (List.mem_cons_of_mem _ ho'))
    simp only [regionPairs] at hrest ⊢
    simp [List.filterMap_cons, ho, hr, hrest]

theorem keysInOrder_const (k : String) :
    ∀ (l : List (String × OrderDoc)), (∀ p ∈ l, p.1 = k) → l ≠ [] →
    keysInOrder l = [k] := by
  intro l
  induction l with
  | nil => intro _ h; exact absurd rfl h
  | cons p rest ih =>
    intro hall _
    have hp : p.1 = k := hall p (List.mem_cons_self _ _)
    cases rest with
    | nil => simp [keysInOrder, hp]
    | cons q rest' =>
      have hr := ih (fun q' hq' => hall q' (List.mem_cons_of_mem _ hq'))
        (by simp)
      rw [keysInOrder, hr, hp]
      simp

theorem valuesFor_const (k : String) (l : List (String × OrderDoc))
    (hall : ∀ p ∈ l, p.1 = k) : valuesFor k l = l.map (fun p => p.2) := by
  unfold valuesFor
  rw [List.filter_eq_self.mpr]
  intro a ha
  simp [hall a ha]

theorem regionGroups_const (r : String) (hr : r ≠ "")
    (orders : List OrderDoc)
    (hall : ∀ o ∈ orders, o.address_state = some r) (hne : orders ≠ []) :
    regionGroups orders = [(r, orders)] := by
  have hp := regionPairs_const r hr orders hall
  unfold regionGroups
  rw [hp]
  have hkeys : keysInOrder (orders.map (fun o => (r, o))) = [r] := by
    apply keysInOrder_const
    · intro p hp'
      simp only [List.mem_map] at hp'
      obtain ⟨o, _, hpe⟩ := hp'
      rw [← hpe]
    · cases orders with
      | nil => exact absurd rfl hne
      | cons a rest => simp
  rw [hkeys]
  have hv := valuesFor_const r (orders.map (fun o => (r, o)))
    (by intro p hp'
        simp only [List.mem_map] at hp'
        obtain ⟨o, _, hpe⟩ := hp'
        rw [← hpe])
  simp [hv, List.map_map]

/-- C9: for a working set of exactly 3 validated orders, all in region
`CA`, none aged 6 hours or more (with parseable or missing timestamps),
and no product sku shared by 3 or more group members, `suggest_batches`
returns exactly one candidate: the region candidate for `CA`, whose name
contains `CA`, with member count 3 and score `2 × 3 = 6`. -/
theorem C9_three_CA_orders (now : Int) (docs : List OrderDoc)
    (h3 : (workingSet docs).length = 3)
    (hca : ∀ o ∈ workingSet docs, o.address_state = some "CA")
    (hid : ∀ o ∈ workingSet docs, (o.order_id).isSome = true)
    (hyoung : ∀ o ∈ workingSet docs,
      isMalformedCA o.created_at = false ∧ isUrgentB now o = false)
    (hsku : ∀ p ∈ skuGroups (workingSet docs), p.2.length < 3) :
    suggest_batches now docs
        = [regionDescr "CA" (workingSet docs)
            ((workingSet docs).filterMap (fun o => o.order_id))] ∧
    (regionDescr "CA" (workingSet docs)
        ((workingSet docs).filterMap (fun o => o.order_id))).type
      = "region" ∧
    (∃ pre post,
      (regionDescr "CA" (workingSet docs)
          ((workingSet docs).filterMap (fun o => o.order_id))).name
        = pre ++ "CA" ++ post) ∧
    (regionDescr "CA" (workingSet docs)
        ((workingSet docs).filterMap (fun o => o.order_id))).count = 3 ∧
    score (regionDescr "CA" (workingSet docs)
        ((workingSet docs).filterMap (fun o => o.order_id))) = 6 := by
  have hne : workingSet docs ≠ [] := by
    intro h
    rw [h] at h3
    cases h3
  have hneb : (workingSet docs).isEmpty = false := by
    cases hws2 : workingSet docs with
    | nil => exact absurd hws2 hne
    | cons a rest => rfl
  have hgroups : regionGroups (workingSet docs) = [("CA", workingSet docs)] :=
    regionGroups_const "CA" (by decide) (workingSet docs) hca hne
  have h3' : 3 ≤ (workingSet docs).length := by omega
  have hreg : batch_by_region (workingSet docs)
      = .ok [regionDescr "CA" (workingSet docs)
          ((workingSet docs).filterMap (fun o => o.order_id))] := by
    unfold batch_by_region
    rw [hgroups]
    have h := buildRegion_ok [("CA", workingSet docs)]
      (by intro p hp o ho
          simp only [List.mem_singleton] at hp
          subst hp
          exact hid o ho)
    simpa [List.filter_cons, h3'] using h
  have hfilter : (workingSet docs).filter (fun o => isUrgentB now o) = [] :=
    List.filter_eq_nil_iff.mpr (fun a ha => by simp [(hyoung a ha).2])
  have hclean := urgentFilter_ok_of_clean now (workingSet docs)
    (fun o ho => (hyoung o ho).1)
  rw [hfilter] at hclean
  have hurg : batch_by_urgency now (workingSet docs) = .ok [] := by
    unfold batch_by_urgency
    simp [hclean]
  have hprod : batch_by_products (workingSet docs) = .ok [] :=
    buildProducts_small _ hsku
  have hpip : suggest_pipeline now (workingSet docs)
      = .ok [regionDescr "CA" (workingSet docs)
          ((workingSet docs).filterMap (fun o => o.order_id))] := by
    unfold suggest_pipeline
    simp [hreg, hurg, hprod, rank_batches]
  refine ⟨?_, rfl, ⟨"", " Orders", rfl⟩, h3, ?_⟩
  · simp [suggest_batches, hneb, hpip]
  · simp only [score, regionDescr]
    have hp1 : ((none : Option String) == some "high") = false := rfl
    have hc1 : ¬ (10 < (workingSet docs).length) := by omega
    rw [hp1]
    simp only [Bool.false_eq_true, if_false, hc1, if_neg hc1]
    rw [h3]
    norm_num

theorem C9_three_CA_orders_witness :
    suggest_batches 0 [sCA "A", sCA "B", sCA "C"]
      = [regionDescr "CA" (workingSet [sCA "A", sCA "B", sCA "C"])
          ((workingSet [sCA "A", sCA "B", sCA "C"]).filterMap
            (fun o => o.order_id))] :=
  (C9_three_CA_orders 0 [sCA "A", sCA "B", sCA "C"] (by decide) (by decide)
    (by decide) (by decide) (by decide)).1

theorem productName_cons (sku : String) (o : OrderDoc) (g : List OrderDoc)
    (it : Item) (tl : List Item) (hit : o.items = it :: tl) :
    productName sku (o :: g) = .ok (it.name.getD sku) := by
  have hstep : productName sku (o :: g)
      = (match o.items with
         | [] => Except.error "IndexError: list index out of range"
         | it :: _ => Except.ok (it.name.getD sku)) := rfl
  rw [hstep, hit]

theorem productNameT_cons (sku : String) (o : OrderDoc) (g : List OrderDoc)
    (it : Item) (tl : List Item) (hit : o.items = it :: tl) :
    productNameT sku (o :: g) = it.name.getD sku := by
  have hstep : productNameT sku (o :: g)
      = (match o.items with
         | [] => sku
         | it :: _ => it.name.getD sku) := rfl
  rw [hstep, hit]

theorem filterMap_order_id_replicate (o : OrderDoc) (i : String)
    (h : o.order_id = some i) (n : Nat) :
    List.filterMap (fun o => o.order_id) (List.replicate n o)
      = List.replicate n i := by
  induction n with
  | zero => rfl
  | succ n ih => simp [List.replicate_succ, List.filterMap_cons, h, ih]

/-- A validated order whose `items` list repeats one sku `k` times. -/
def repOrder (oid nm sku : String) (k : Nat) : OrderDoc :=
  ⟨some oid, some "validated", none, .parsed 0,
   List.replicate k ⟨some sku, some nm⟩, none, none⟩

/-- C10: in the product strategy an order is inserted into a sku group
once per line item carrying that sku, so a single order with `k ≥ 3` line
items of one sku yields a product candidate by itself: its member list
repeats the one order `k` times, its member count is `k`, and the
member-identifier list repeats the order's id `k` times. -/
theorem C10_duplicate_sku_items (oid nm sku : String) (hsku : sku ≠ "")
    (k : Nat) (hk : 3 ≤ k) :
    batch_by_products [repOrder oid nm sku k]
      = .ok [productDescr nm (List.replicate k (repOrder oid nm sku k))
          (List.replicate k oid)] := by
  have hpairs : skuPairs [repOrder oid nm sku k]
      = List.replicate k (sku, repOrder oid nm sku k) := by
    simp only [skuPairs, repOrder, List.map_cons, List.map_nil,
      List.flatten_cons, List.flatten_nil, List.append_nil]
    rw [List.filterMap_replicate_of_some]
    simp [hsku]
  have hkeys : keysInOrder (List.replicate k (sku, repOrder oid nm sku k))
      = [sku] := by
    apply keysInOrder_const
    · intro p hp
      rw [List.eq_of_mem_replicate hp]
    · have h0 : 0 < k := by omega
      simp [List.replicate, h0]
      omega
  have hvals : valuesFor sku (List.replicate k (sku, repOrder oid nm sku k))
      = List.replicate k (repOrder oid nm sku k) := by
    rw [valuesFor_const]
    · simp
    · intro p hp
      rw [List.eq_of_mem_replicate hp]
  have hgroups : skuGroups [repOrder oid nm sku k]
      = [(sku, List.replicate k (repOrder oid nm sku k))] := by
    unfold skuGroups
    rw [hpairs, hkeys]
    simp [hvals]
  have hrep : List.replicate k (repOrder oid nm sku k)
      = repOrder oid nm sku k
          :: List.replicate (k - 1) (repOrder oid nm sku k) := by
    cases k with
    | zero => omega
    | succ k' => simp [List.replicate_succ]
  have hitems : (repOrder oid nm sku k).items
      = (⟨some sku, some nm⟩ : Item)
          :: List.replicate (k - 1) ⟨some sku, some nm⟩ := by
    cases k with
    | zero => omega
    | succ k' => simp [repOrder, List.replicate_succ]
  have hname : productName sku (List.replicate k (repOrder oid nm sku k))
      = .ok nm := by
    rw [hrep, productName_cons sku _ _ ⟨some sku, some nm⟩ _ hitems]
    rfl
  have hnameT : productNameT sku (List.replicate k (repOrder oid nm sku k))
      = nm := by
    rw [hrep, productNameT_cons sku _ _ ⟨some sku, some nm⟩ _ hitems]
    rfl
  have hids : getOrderIds (List.replicate k (repOrder oid nm sku k))
      = .ok (List.replicate k oid) := by
    rw [getOrderIds_ok]
    · rw [filterMap_order_id_replicate _ oid rfl k]
    · intro o ho
      rw [List.eq_of_mem_replicate ho]
      rfl
  have hlen : 3 ≤ (List.replicate k (repOrder oid nm sku k)).length := by
    simpa using hk
  unfold batch_by_products
  rw [hgroups]
  simp [buildProducts, hlen, hname, hids, hnameT, hk]

theorem C10_duplicate_sku_items_witness :
    batch_by_products [repOrder "E" "Widget" "X" 3]
      = .ok [productDescr "Widget"
          (List.replicate 3 (repOrder "E" "Widget" "X" 3))
          (List.replicate 3 "E")] :=
  C10_duplicate_sku_items "E" "Widget" "X" (by decide) 3 (by decide)
